import Mathlib

/-
Verification of the message-lifecycle core of the bus1 IPC subsystem
(ipc/bus1/message.c): message creation and destruction, binding a message
to a destination peer's pool slice and quota charge, unbinding, and the
installation of handle ids and file descriptors into the receiving peer.

The source file message.c is embedded shallowly below.  The external
collaborators it calls (pool allocator, user quota ledger, the process
descriptor table, the handle inflight tracker) are not part of the source
file; they are modelled from the spec's interface contracts (spec section 6)
as explicit state passed through the operations.
-/

namespace Bus1

/-- ALIGN(x, 8) from the kernel headers: round x up to the next multiple
of 8 (all alignments in message.c use the power-of-two constant 8). -/
def ALIGN (x a : Nat) : Nat := (x + (a - 1)) / a * a

/-- BUS1_OFFSET_INVALID, the sentinel value of data.offset before a pool
slice is bound (the all-ones 64-bit value in the source). -/
def BUS1_OFFSET_INVALID : Nat := 2 ^ 64 - 1

/-- Modelled from the spec: the per-user quota ledger kept by the Resource
Accountant (user.c is not part of the source file): outstanding bytes,
handles and file descriptors charged for in-flight messages. -/
structure Ledger where
  bytes : Nat
  handles : Nat
  fds : Nat
deriving DecidableEq, Repr

/-- A slice handed out by the pool allocator: a contiguous, offset-addressed
region of the peer's pool. -/
structure Bus1PoolSlice where
  offset : Nat
  size : Nat
deriving DecidableEq, Repr

/-- Modelled from the spec: the peer-owned pool arena (pool.c is not part of
the source file): a capacity and the number of bytes currently allocated. -/
structure Bus1Pool where
  size : Nat
  allocated : Nat
deriving DecidableEq, Repr

/-- The destination peer state visible to message.c: its pool, and the
quota ledger and limit of the user being accounted (bus1_peer_info). -/
structure Bus1PeerInfo where
  pool : Bus1Pool
  ledger : Ledger
  limit : Ledger
deriving DecidableEq, Repr

/-- The header fields of a message (struct bus1_message, data member),
initialized by bus1_message_new. -/
structure Bus1MessageData where
  destination : Nat
  uid : Int
  gid : Int
  pid : Int
  tid : Int
  offset : Nat
  n_bytes : Nat
  n_handles : Nat
  n_fds : Nat
deriving DecidableEq, Repr

/-- struct bus1_message: the transaction link pointers, the accounted user
reference, the bound pool slice, the inflight handle capacity and the file
slots (a slot is true when it holds an owned file reference). -/
structure Bus1Message where
  qnode_silent : Bool
  data : Bus1MessageData
  transaction_next : Option Nat
  transaction_handle : Option Nat
  transaction_raw_peer : Option Nat
  user : Option Nat
  slice : Option Bus1PoolSlice
  files : List Bool
  handles_capacity : Nat
deriving DecidableEq, Repr

/-- Modelled from the spec: Resource Accountant charge — add the three
amounts to the user's ledger if the result stays within the limit,
otherwise fail (QuotaExceeded) leaving the ledger untouched. -/
def bus1_user_quota_charge (peer : Bus1PeerInfo) (nb nh nf : Nat) :
    Option Bus1PeerInfo :=
  if peer.ledger.bytes + nb ≤ peer.limit.bytes ∧
     peer.ledger.handles + nh ≤ peer.limit.handles ∧
     peer.ledger.fds + nf ≤ peer.limit.fds then
    some { peer with ledger := ⟨peer.ledger.bytes + nb, peer.ledger.handles + nh,
                                peer.ledger.fds + nf⟩ }
  else
    none

/-- Modelled from the spec: Resource Accountant discharge — subtract the
three amounts from the user's ledger (charge and discharge are exact
inverses on the amounts actually charged). -/
def bus1_user_quota_discharge (peer : Bus1PeerInfo) (nb nh nf : Nat) :
    Bus1PeerInfo :=
  { peer with ledger := ⟨peer.ledger.bytes - nb, peer.ledger.handles - nh,
                         peer.ledger.fds - nf⟩ }

/-- Modelled from the spec: Pool alloc — hand out a slice of the requested
size if the pool has room, else fail (PoolExhausted). The offset is the
current allocation watermark. -/
def bus1_pool_alloc (pool : Bus1Pool) (size : Nat) :
    Option (Bus1PoolSlice × Bus1Pool) :=
  if pool.allocated + size ≤ pool.size then
    some (⟨pool.allocated, size⟩, { pool with allocated := pool.allocated + size })
  else
    none

/-- Modelled from the spec: Pool release — return a slice's bytes to the
pool. -/
def bus1_pool_release_kernel (pool : Bus1Pool) (slice : Bus1PoolSlice) :
    Bus1Pool :=
  { pool with allocated := pool.allocated - slice.size }

/-- bus1_message_new (message.c lines 37-75): allocate a fresh message with
the given counts; ownership fields start empty, data.offset starts at the
invalid sentinel, every file slot starts empty.  (The kmalloc failure path
returns ENOMEM and produces no message; the embedding models the successful
allocation.) -/
def bus1_message_new (n_bytes n_files n_handles : Nat) (silent : Bool) :
    Bus1Message where
  qnode_silent := silent
  data := { destination := 0, uid := -1, gid := -1, pid := 0, tid := 0,
            offset := BUS1_OFFSET_INVALID, n_bytes := n_bytes,
            n_handles := n_handles, n_fds := n_files }
  transaction_next := none
  transaction_handle := none
  transaction_raw_peer := none
  user := none
  slice := none
  files := List.replicate n_files false
  handles_capacity := n_handles

/-- The observable effect of bus1_message_free: how many file references
were released (fput) and whether the storage was freed. -/
structure FreeEffect where
  fput_count : Nat
  freed : Bool
deriving DecidableEq, Repr

/-- bus1_message_free (message.c lines 88-110): NULL input is a no-op that
returns NULL; otherwise every occupied file slot is released (fput), the
handle batch and queue node are destroyed, the storage is freed, and NULL
is returned. -/
def bus1_message_free : Option Bus1Message → Option Bus1Message × FreeEffect
  | none => (none, { fput_count := 0, freed := false })
  | some m => (none, { fput_count := m.files.count true, freed := true })

/-- The error kinds bus1_message_allocate_locked can return, named as in the
spec: EINVAL for a message already bound, a quota charge failure, a pool
allocation failure. -/
inductive BindError
  | AlreadyBound
  | QuotaExceeded
  | PoolExhausted
deriving DecidableEq, Repr

/-- The slice size computed by bus1_message_allocate_locked (message.c
lines 145-147).  NOTE: the third summand is ALIGN(n_fds + sizeof(int), 8),
with a `+` where the descriptor-table region would need
n_fds * sizeof(int) — transcribed faithfully from the source. -/
def bus1_slice_size (nb nh nf : Nat) : Nat :=
  ALIGN nb 8 + ALIGN (nh * 8) 8 + ALIGN (nf + 4) 8

/-- The slice size the spec's layout requires (spec sections 4.2 and 6):
three independently 8-byte-aligned regions, the descriptor-table region
sized for n_fds four-byte entries. -/
def spec_slice_size (nb nh nf : Nat) : Nat :=
  ALIGN nb 8 + ALIGN (nh * 8) 8 + ALIGN (nf * 4) 8

/-- The offset at which bus1_message_install_fds writes the descriptor
numbers into the slice (message.c lines 260-261). -/
def bus1_fd_offset (nb nh : Nat) : Nat :=
  ALIGN nb 8 + ALIGN (nh * 8) 8

/-- bus1_message_allocate_locked (message.c lines 124-162): fail if already
bound; charge the user's quota, failing without side effect if the charge
fails; allocate a pool slice of bus1_slice_size, discharging the quota
again if the allocation fails; on success store the user reference, the
slice, and the slice's offset.  Returns the error (none on success) with
the resulting message and peer state. -/
def bus1_message_allocate_locked (message : Bus1Message) (peer : Bus1PeerInfo)
    (user : Nat) : Option BindError × Bus1Message × Bus1PeerInfo :=
  if message.user.isSome || message.slice.isSome then
    (some BindError.AlreadyBound, message, peer)
  else
    match bus1_user_quota_charge peer message.data.n_bytes
        message.data.n_handles message.data.n_fds with
    | none => (some BindError.QuotaExceeded, message, peer)
    | some peer1 =>
      match bus1_pool_alloc peer1.pool
          (bus1_slice_size message.data.n_bytes message.data.n_handles
            message.data.n_fds) with
      | none =>
        (some BindError.PoolExhausted, message,
         bus1_user_quota_discharge peer1 message.data.n_bytes
           message.data.n_handles message.data.n_fds)
      | some (slice, pool1) =>
        (none,
         { message with user := some user, slice := some slice,
                        data := { message.data with offset := slice.offset } },
         { peer1 with pool := pool1 })

/-- bus1_message_deallocate_locked (message.c lines 172-187): if a slice is
bound, discharge the quota with the message's (immutable) counts and
release the slice; in all cases drop the user reference. -/
def bus1_message_deallocate_locked (message : Bus1Message)
    (peer : Bus1PeerInfo) : Bus1Message × Bus1PeerInfo :=
  match message.slice with
  | some slice =>
    let peer1 := bus1_user_quota_discharge peer message.data.n_bytes
      message.data.n_handles message.data.n_fds
    ({ message with slice := none, user := none },
     { peer1 with pool := bus1_pool_release_kernel peer1.pool slice })
  | none => ({ message with user := none }, peer)

/-- Modelled from the spec: the receiving process's descriptor table as
seen by InstallFds — remaining free slots, slots newly reserved (not yet
bound to a file), and slots newly reserved and bound to a file. -/
structure FdProc where
  free_slots : Nat
  reserved : Nat
  bound : Nat
deriving DecidableEq, Repr

/-- Modelled from the spec: get_unused_fd_flags — reserve one fresh
close-on-exec descriptor slot, failing when the table is exhausted. -/
def get_unused_fd_flags (proc : FdProc) : Option FdProc :=
  if proc.free_slots = 0 then
    none
  else
    some { proc with free_slots := proc.free_slots - 1,
                     reserved := proc.reserved + 1 }

/-- Modelled from the spec: put_unused_fd — release one reserved, unbound
descriptor slot back to the table. -/
def put_unused_fd (proc : FdProc) : FdProc :=
  { proc with free_slots := proc.free_slots + 1, reserved := proc.reserved - 1 }

/-- Modelled from the spec: fd_install — bind one reserved slot to a file
reference; this step cannot fail. -/
def fd_install (proc : FdProc) : FdProc :=
  { proc with reserved := proc.reserved - 1, bound := proc.bound + 1 }

/-- The reservation loop of bus1_message_install_fds (message.c lines
247-256): reserve n slots one at a time; if a reservation fails, release
every slot reserved so far on the way out (the while (i--) put_unused_fd
rollback) and return the rolled-back state as the error. -/
def install_fds_reserve : Nat → FdProc → Except FdProc FdProc
  | 0, proc => Except.ok proc
  | n + 1, proc =>
    match get_unused_fd_flags proc with
    | none => Except.error proc
    | some proc1 =>
      match install_fds_reserve n proc1 with
      | Except.ok proc2 => Except.ok proc2
      | Except.error proc2 => Except.error (put_unused_fd proc2)

/-- The error-path loop of bus1_message_install_fds (lines 274-276):
release n reserved slots. -/
def put_unused_fd_loop : Nat → FdProc → FdProc
  | 0, proc => proc
  | n + 1, proc => put_unused_fd_loop n (put_unused_fd proc)

/-- The success-path loop of bus1_message_install_fds (lines 268-269):
bind each of the n reserved slots to its file. -/
def fd_install_loop : Nat → FdProc → FdProc
  | 0, proc => proc
  | n + 1, proc => fd_install_loop n (fd_install proc)

/-- The error kinds bus1_message_install_fds can produce: ENOMEM from the
temporary fd-array kmalloc, descriptor-table exhaustion during reservation,
and a pool write failure. -/
inductive InstallError
  | OutOfMemory
  | ResourceExhausted
  | WriteFailure
deriving DecidableEq, Repr

/-- bus1_message_install_fds (message.c lines 236-279): kmalloc a temporary
fd array of n_fds * sizeof(int) bytes (ENOMEM on failure, nothing
reserved); reserve n_fds slots with full rollback on exhaustion; write the
slot numbers into the slice (releasing all n_fds slots if the write
fails); only then bind every slot to its file.  kmalloc_ok and write_ok
stand for the outcomes of the two external fallible steps that do not
depend on FdProc state; a size-0 kmalloc (n_fds = 0) returns the non-NULL
ZERO_SIZE_PTR sentinel and never fails, so the ENOMEM branch is reachable
only when n_fds is nonzero. -/
def bus1_message_install_fds (message : Bus1Message) (proc : FdProc)
    (kmalloc_ok write_ok : Bool) : Option InstallError × FdProc :=
  if kmalloc_ok = false ∧ message.data.n_fds ≠ 0 then
    (some InstallError.OutOfMemory, proc)
  else
    match install_fds_reserve message.data.n_fds proc with
    | Except.error proc1 => (some InstallError.ResourceExhausted, proc1)
    | Except.ok proc1 =>
      if write_ok = false then
        (some InstallError.WriteFailure,
         put_unused_fd_loop message.data.n_fds proc1)
      else
        (none, fd_install_loop message.data.n_fds proc1)

/-- The pool writes the spec prescribes for InstallHandles: each chunk is
written at a running offset that starts at the given offset and advances by
the chunk's byte length (length × 8); a write is recorded as
(offset, byte length). -/
def spec_handle_writes : Nat → List (List Nat) → List (Nat × Nat)
  | _, [] => []
  | off, c :: cs => (off, c.length * 8) :: spec_handle_writes (off + c.length * 8) cs

/-- The number of leading chunks (starting at chunk index i, among n
chunks) whose pool write succeeds. -/
def lead_ok (wok : Nat → Bool) : Nat → Nat → Nat
  | _, 0 => 0
  | i, n + 1 => if wok i then lead_ok wok (i + 1) n + 1 else 0

/-- The walk-and-write loop of bus1_message_install_handles (message.c
lines 211-221): for each chunk of n resolved handle ids, write n * 8 bytes
at the running offset; stop at the first failing write (returning false)
or when the chunk sequence is exhausted (returning true), together with
the trace of performed writes.  wok i is the outcome of the i-th pool
write. -/
def install_handles_go (wok : Nat → Bool) :
    Nat → Nat → List (List Nat) → Bool × List (Nat × Nat)
  | _, _, [] => (true, [])
  | i, off, c :: cs =>
    if wok i then
      let r := install_handles_go wok (i + 1) (off + c.length * 8) cs
      (r.1, (off, c.length * 8) :: r.2)
    else
      (false, [])

/-- bus1_message_install_handles (message.c lines 199-224): the running
offset starts at ALIGN(n_bytes, 8) (line 207); chunks is the chunked
sequence of resolved 64-bit handle ids the inflight walk produces.  The
source function writes only into the pool slice and never assigns any
message field, so the embedding returns the write trace and the result. -/
def bus1_message_install_handles (message : Bus1Message)
    (chunks : List (List Nat)) (wok : Nat → Bool) : Bool × List (Nat × Nat) :=
  install_handles_go wok 0 (ALIGN message.data.n_bytes 8) chunks

/-- The reservation loop either reserves all n slots (when the table has
room) or fails having rolled back to exactly the initial state. -/
theorem install_fds_reserve_spec (n : Nat) : ∀ proc : FdProc,
    install_fds_reserve n proc =
      if n ≤ proc.free_slots then
        Except.ok { free_slots := proc.free_slots - n,
                    reserved := proc.reserved + n, bound := proc.bound }
      else
        Except.error proc := by
  induction n with
  | zero =>
    intro proc
    obtain ⟨f, r, b⟩ := proc
    simp [install_fds_reserve]
  | succ n ih =>
    intro proc
    obtain ⟨f, r, b⟩ := proc
    cases f with
    | zero =>
      simp [install_fds_reserve, get_unused_fd_flags]
    | succ k =>
      by_cases h1 : n ≤ k
      · simp only [install_fds_reserve, get_unused_fd_flags, ih, Nat.succ_ne_zero,
          if_false, Nat.succ_sub_one, if_pos h1, if_pos (Nat.succ_le_succ h1),
          Except.ok.injEq, FdProc.mk.injEq]
        refine ⟨by omega, by omega, trivial⟩
      · simp only [install_fds_reserve, get_unused_fd_flags, ih, Nat.succ_ne_zero,
          if_false, Nat.succ_sub_one, if_neg h1,
          if_neg (fun hc => h1 (Nat.le_of_succ_le_succ hc)),
          put_unused_fd, Except.error.injEq, FdProc.mk.injEq]

/-- Releasing n reserved slots returns them to the free count. -/
theorem put_unused_fd_loop_spec (n : Nat) : ∀ proc : FdProc,
    put_unused_fd_loop n proc =
      { free_slots := proc.free_slots + n, reserved := proc.reserved - n,
        bound := proc.bound } := by
  induction n with
  | zero =>
    intro proc
    obtain ⟨f, r, b⟩ := proc
    simp [put_unused_fd_loop]
  | succ n ih =>
    intro proc
    obtain ⟨f, r, b⟩ := proc
    simp only [put_unused_fd_loop, put_unused_fd, ih, FdProc.mk.injEq]
    refine ⟨by omega, by omega, trivial⟩

/-- Binding n reserved slots moves them from reserved to bound. -/
theorem fd_install_loop_spec (n : Nat) : ∀ proc : FdProc,
    fd_install_loop n proc =
      { free_slots := proc.free_slots, reserved := proc.reserved - n,
        bound := proc.bound + n } := by
  induction n with
  | zero =>
    intro proc
    obtain ⟨f, r, b⟩ := proc
    simp [fd_install_loop]
  | succ n ih =>
    intro proc
    obtain ⟨f, r, b⟩ := proc
    simp only [fd_install_loop, fd_install, ih, FdProc.mk.injEq]
    refine ⟨trivial, by omega, by omega⟩

/-- C2: bus1_message_install_fds is all-or-nothing on the receiving
process's descriptor table: every error return leaves the table exactly as
it was (0 newly reserved slots), and the success return leaves exactly
n_fds newly reserved, file-bound slots; no intermediate count survives the
call. -/
theorem install_fds_all_or_nothing (m : Bus1Message) (proc : FdProc)
    (ko wo : Bool) :
    ((bus1_message_install_fds m proc ko wo).1.isSome = true ∧
     (bus1_message_install_fds m proc ko wo).2 = proc) ∨
    ((bus1_message_install_fds m proc ko wo).1 = none ∧
     m.data.n_fds ≤ proc.free_slots ∧
     (bus1_message_install_fds m proc ko wo).2 =
       { free_slots := proc.free_slots - m.data.n_fds,
         reserved := proc.reserved,
         bound := proc.bound + m.data.n_fds }) := by
  obtain ⟨f, r, b⟩ := proc
  by_cases hk : ko = false ∧ m.data.n_fds ≠ 0
  · left
    simp [bus1_message_install_fds, hk]
  · by_cases h : m.data.n_fds ≤ f
    · cases wo with
      | false =>
        left
        simp only [bus1_message_install_fds, if_neg hk,
          install_fds_reserve_spec, if_pos h, if_true,
          if_pos (rfl : (false : Bool) = false),
          put_unused_fd_loop_spec, Option.isSome_some, FdProc.mk.injEq,
          and_true, true_and]
        omega
      | true =>
        right
        simp only [bus1_message_install_fds, if_neg hk,
          if_neg (by decide : ¬ ((true : Bool) = false)),
          install_fds_reserve_spec, if_pos h, fd_install_loop_spec,
          FdProc.mk.injEq, and_true, true_and]
        refine ⟨h, by omega⟩
    · left
      simp only [bus1_message_install_fds, if_neg hk,
        install_fds_reserve_spec, if_neg h, Option.isSome_some, FdProc.mk.injEq,
        and_true, true_and]

/-- C6 (amended): the result of bus1_message_install_fds is exactly
determined: OutOfMemory when the temporary fd-array allocation fails —
possible only for a nonzero n_fds, since kmalloc(0) returns the non-NULL
ZERO_SIZE_PTR sentinel — ResourceExhausted when the descriptor table has
fewer than n_fds free slots, WriteFailure when the pool write fails, and
success otherwise; no other error kind is returned. -/
theorem install_fds_error_kinds (m : Bus1Message) (proc : FdProc)
    (ko wo : Bool) :
    (bus1_message_install_fds m proc ko wo).1 =
      if ko = false ∧ m.data.n_fds ≠ 0 then some InstallError.OutOfMemory
      else if proc.free_slots < m.data.n_fds then
        some InstallError.ResourceExhausted
      else if wo = false then some InstallError.WriteFailure
      else none := by
  obtain ⟨f, r, b⟩ := proc
  by_cases hk : ko = false ∧ m.data.n_fds ≠ 0
  · simp [bus1_message_install_fds, hk]
  · by_cases h : m.data.n_fds ≤ f
    · have h1 : ¬ f < m.data.n_fds := by omega
      cases wo with
      | false =>
        simp [bus1_message_install_fds, hk, install_fds_reserve_spec, if_pos h, h1]
      | true =>
        simp [bus1_message_install_fds, hk, install_fds_reserve_spec, if_pos h, h1]
    · have h1 : f < m.data.n_fds := by omega
      simp [bus1_message_install_fds, hk, install_fds_reserve_spec, if_neg h, h1]

/-- Discharging a successful charge restores the ledger exactly: the
amounts are added then subtracted back. -/
theorem discharge_charge (peer peer1 : Bus1PeerInfo) (nb nh nf : Nat)
    (h : bus1_user_quota_charge peer nb nh nf = some peer1) :
    bus1_user_quota_discharge peer1 nb nh nf = peer := by
  obtain ⟨pool, ledger, limit⟩ := peer
  obtain ⟨lb, lh, lf⟩ := ledger
  unfold bus1_user_quota_charge at h
  split at h
  · injection h with h1
    subst h1
    simp [bus1_user_quota_discharge]
  · exact absurd h (by simp)

/-- C3: if Bind charges the quota successfully but the pool allocation
fails, Bind returns PoolExhausted having discharged exactly the charged
amounts: the message is unchanged (still unbound) and the peer state —
ledger included — equals the state before the call. -/
theorem bind_pool_failure_restores_ledger (m : Bus1Message)
    (peer peer1 : Bus1PeerInfo) (u : Nat)
    (hm : m.user = none) (hs : m.slice = none)
    (hc : bus1_user_quota_charge peer m.data.n_bytes m.data.n_handles
            m.data.n_fds = some peer1)
    (ha : bus1_pool_alloc peer1.pool
            (bus1_slice_size m.data.n_bytes m.data.n_handles m.data.n_fds) =
          none) :
    bus1_message_allocate_locked m peer u =
      (some BindError.PoolExhausted, m, peer) := by
  simp only [bus1_message_allocate_locked, hm, hs, Option.isSome_none,
    Bool.or_false, if_neg (by decide : ¬ ((false : Bool) = true)), hc, ha]
  rw [discharge_charge peer peer1 _ _ _ hc]

/-- C3 (witness): a concrete run in which the quota charge succeeds, the
pool allocation fails, and Bind returns PoolExhausted with the message and
the peer — its quota ledger in particular — exactly as before the call. -/
theorem bind_pool_failure_restores_ledger_witness :
    bus1_message_allocate_locked (bus1_message_new 1 0 0 false)
        ⟨⟨0, 0⟩, ⟨0, 0, 0⟩, ⟨100, 100, 100⟩⟩ 7 =
      (some BindError.PoolExhausted, bus1_message_new 1 0 0 false,
       ⟨⟨0, 0⟩, ⟨0, 0, 0⟩, ⟨100, 100, 100⟩⟩) :=
  bind_pool_failure_restores_ledger (bus1_message_new 1 0 0 false)
    ⟨⟨0, 0⟩, ⟨0, 0, 0⟩, ⟨100, 100, 100⟩⟩
    ⟨⟨0, 0⟩, ⟨1, 0, 0⟩, ⟨100, 100, 100⟩⟩ 7 rfl rfl (by decide) (by decide)

/-- C5: after a successful Bind followed by Unbind, the user's quota
ledger equals the ledger before Bind — Unbind discharges exactly the
amounts Bind charged (the counts are immutable on the message). -/
theorem bind_unbind_restores_ledger (m m1 : Bus1Message)
    (peer peer1 : Bus1PeerInfo) (u : Nat)
    (h : bus1_message_allocate_locked m peer u = (none, m1, peer1)) :
    (bus1_message_deallocate_locked m1 peer1).2.ledger = peer.ledger := by
  by_cases hb : (m.user.isSome || m.slice.isSome) = true
  · unfold bus1_message_allocate_locked at h
    rw [if_pos hb] at h
    simp at h
  · cases hc : bus1_user_quota_charge peer m.data.n_bytes m.data.n_handles
        m.data.n_fds with
    | none =>
      have hval : bus1_message_allocate_locked m peer u =
          (some BindError.QuotaExceeded, m, peer) := by
        simp only [bus1_message_allocate_locked, if_neg hb, hc]
      rw [hval] at h
      simp at h
    | some peerc =>
      cases ha : bus1_pool_alloc peerc.pool
          (bus1_slice_size m.data.n_bytes m.data.n_handles m.data.n_fds) with
      | none =>
        have hval : bus1_message_allocate_locked m peer u =
            (some BindError.PoolExhausted, m,
             bus1_user_quota_discharge peerc m.data.n_bytes m.data.n_handles
               m.data.n_fds) := by
          simp only [bus1_message_allocate_locked, if_neg hb, hc, ha]
        rw [hval] at h
        simp at h
      | some sp =>
        obtain ⟨slice, pool1⟩ := sp
        have hval : bus1_message_allocate_locked m peer u =
            (none,
             { m with user := some u, slice := some slice,
                      data := { m.data with offset := slice.offset } },
             { peerc with pool := pool1 }) := by
          simp only [bus1_message_allocate_locked, if_neg hb, hc, ha]
        rw [hval] at h
        simp only [Prod.mk.injEq] at h
        obtain ⟨-, hm1, hp1⟩ := h
        subst hm1
        subst hp1
        show (bus1_user_quota_discharge { peerc with pool := pool1 }
            m.data.n_bytes m.data.n_handles m.data.n_fds).ledger = peer.ledger
        have hpl : (bus1_user_quota_discharge { peerc with pool := pool1 }
            m.data.n_bytes m.data.n_handles m.data.n_fds).ledger =
            (bus1_user_quota_discharge peerc
              m.data.n_bytes m.data.n_handles m.data.n_fds).ledger := rfl
        rw [hpl, discharge_charge peer peerc _ _ _ hc]

/-- C5 (witness): a concrete Bind success followed by Unbind, after which
the quota ledger is back to its pre-Bind value. -/
theorem bind_unbind_restores_ledger_witness :
    (bus1_message_deallocate_locked
        { bus1_message_new 1 0 0 false with
            user := some 7, slice := some ⟨0, 16⟩,
            data := { (bus1_message_new 1 0 0 false).data with offset := 0 } }
        ⟨⟨100, 16⟩, ⟨1, 0, 0⟩, ⟨100, 100, 100⟩⟩).2.ledger =
      (⟨⟨100, 0⟩, ⟨0, 0, 0⟩, ⟨100, 100, 100⟩⟩ : Bus1PeerInfo).ledger :=
  bind_unbind_restores_ledger (bus1_message_new 1 0 0 false)
    { bus1_message_new 1 0 0 false with
        user := some 7, slice := some ⟨0, 16⟩,
        data := { (bus1_message_new 1 0 0 false).data with offset := 0 } }
    ⟨⟨100, 0⟩, ⟨0, 0, 0⟩, ⟨100, 100, 100⟩⟩
    ⟨⟨100, 16⟩, ⟨1, 0, 0⟩, ⟨100, 100, 100⟩⟩ 7 (by decide)

/-- C8: on a message whose user or slice field is already set, Bind fails
immediately with AlreadyBound: no quota charge, no pool allocation, and
neither the message nor the peer state is modified. -/
theorem bind_already_bound (m : Bus1Message) (peer : Bus1PeerInfo) (u : Nat)
    (h : m.user.isSome = true ∨ m.slice.isSome = true) :
    bus1_message_allocate_locked m peer u =
      (some BindError.AlreadyBound, m, peer) := by
  unfold bus1_message_allocate_locked
  rw [if_pos (show (m.user.isSome || m.slice.isSome) = true by
    rcases h with h | h <;> simp [h])]

/-- C8 (witness): a message with an accounted user already set makes Bind
fail with AlreadyBound, leaving message and peer untouched. -/
theorem bind_already_bound_witness :
    bus1_message_allocate_locked
        { bus1_message_new 0 0 0 false with user := some 5 }
        ⟨⟨8, 0⟩, ⟨0, 0, 0⟩, ⟨9, 9, 9⟩⟩ 1 =
      (some BindError.AlreadyBound,
       { bus1_message_new 0 0 0 false with user := some 5 },
       ⟨⟨8, 0⟩, ⟨0, 0, 0⟩, ⟨9, 9, 9⟩⟩) :=
  bind_already_bound { bus1_message_new 0 0 0 false with user := some 5 }
    ⟨⟨8, 0⟩, ⟨0, 0, 0⟩, ⟨9, 9, 9⟩⟩ 1 (Or.inl rfl)

/-- C7: Unbind is idempotent — running it twice in a row gives the same
message, pool and ledger as running it once — and on a never-bound
(freshly created) message it is a no-op: no discharge and no pool
release. -/
theorem unbind_idempotent :
    (∀ (m : Bus1Message) (peer : Bus1PeerInfo),
      bus1_message_deallocate_locked (bus1_message_deallocate_locked m peer).1
          (bus1_message_deallocate_locked m peer).2 =
        bus1_message_deallocate_locked m peer) ∧
    (∀ (nb nf nh : Nat) (s : Bool) (peer : Bus1PeerInfo),
      bus1_message_deallocate_locked (bus1_message_new nb nf nh s) peer =
        (bus1_message_new nb nf nh s, peer)) := by
  constructor
  · intro m peer
    obtain ⟨sil, data, tn, th, tr, user, slice, files, hcap⟩ := m
    cases slice with
    | none => simp [bus1_message_deallocate_locked]
    | some s => simp [bus1_message_deallocate_locked]
  · intro nb nf nh s peer
    simp [bus1_message_deallocate_locked, bus1_message_new]

/-- C6 (counterexample): on a message carrying one fd, the temporary
fd-array kmalloc of 1 * sizeof(int) = 4 bytes (message.c lines 243-245)
can genuinely fail, and bus1_message_install_fds then returns OutOfMemory
(-ENOMEM) — an error kind that is neither ResourceExhausted nor
WriteFailure, refuting the claim that those are the only error kinds. -/
theorem install_fds_enomem_counterexample :
    (bus1_message_install_fds (bus1_message_new 0 1 0 false)
        ⟨8, 0, 0⟩ false true).1 = some InstallError.OutOfMemory ∧
    InstallError.OutOfMemory ≠ InstallError.ResourceExhausted ∧
    InstallError.OutOfMemory ≠ InstallError.WriteFailure := by
  refine ⟨by decide, by decide, by decide⟩

/-- A Bind or Unbind step against some peer state, used to state the
paired slice/user invariant over arbitrary operation sequences. -/
inductive MsgOp
  | bind (peer : Bus1PeerInfo) (u : Nat)
  | unbind (peer : Bus1PeerInfo)

/-- The message state after one Bind or Unbind operation. -/
def run_op (m : Bus1Message) : MsgOp → Bus1Message
  | MsgOp.bind peer u => (bus1_message_allocate_locked m peer u).2.1
  | MsgOp.unbind peer => (bus1_message_deallocate_locked m peer).1

/-- The message state after a sequence of Bind/Unbind operations. -/
def run_ops (m : Bus1Message) : List MsgOp → Bus1Message
  | [] => m
  | op :: ops => run_ops (run_op m op) ops

/-- One Bind or Unbind preserves the paired slice/user invariant. -/
theorem run_op_paired (m : Bus1Message) (op : MsgOp)
    (h : m.slice.isSome = m.user.isSome) :
    (run_op m op).slice.isSome = (run_op m op).user.isSome := by
  cases op with
  | bind peer u =>
    show (bus1_message_allocate_locked m peer u).2.1.slice.isSome =
      (bus1_message_allocate_locked m peer u).2.1.user.isSome
    by_cases hb : (m.user.isSome || m.slice.isSome) = true
    · unfold bus1_message_allocate_locked
      rw [if_pos hb]
      exact h
    · cases hc : bus1_user_quota_charge peer m.data.n_bytes m.data.n_handles
          m.data.n_fds with
      | none =>
        have hval : bus1_message_allocate_locked m peer u =
            (some BindError.QuotaExceeded, m, peer) := by
          simp only [bus1_message_allocate_locked, if_neg hb, hc]
        rw [hval]
        exact h
      | some peerc =>
        cases ha : bus1_pool_alloc peerc.pool
            (bus1_slice_size m.data.n_bytes m.data.n_handles m.data.n_fds) with
        | none =>
          have hval : bus1_message_allocate_locked m peer u =
              (some BindError.PoolExhausted, m,
               bus1_user_quota_discharge peerc m.data.n_bytes m.data.n_handles
                 m.data.n_fds) := by
            simp only [bus1_message_allocate_locked, if_neg hb, hc, ha]
          rw [hval]
          exact h
        | some sp =>
          obtain ⟨slice, pool1⟩ := sp
          have hval : bus1_message_allocate_locked m peer u =
              (none,
               { m with user := some u, slice := some slice,
                        data := { m.data with offset := slice.offset } },
               { peerc with pool := pool1 }) := by
            simp only [bus1_message_allocate_locked, if_neg hb, hc, ha]
          rw [hval]
          rfl
  | unbind peer =>
    show (bus1_message_deallocate_locked m peer).1.slice.isSome =
      (bus1_message_deallocate_locked m peer).1.user.isSome
    cases hs : m.slice with
    | none => simp [bus1_message_deallocate_locked, hs]
    | some s => simp [bus1_message_deallocate_locked, hs]

/-- Any sequence of Bind/Unbind operations preserves the paired
slice/user invariant. -/
theorem run_ops_paired (ops : List MsgOp) : ∀ m : Bus1Message,
    m.slice.isSome = m.user.isSome →
    (run_ops m ops).slice.isSome = (run_ops m ops).user.isSome := by
  induction ops with
  | nil => intro m h; exact h
  | cons op ops ih =>
    intro m h
    exact ih (run_op m op) (run_op_paired m op h)

/-- C4: the slice field is non-null exactly when the accounted_user field
is: Create initializes both to null; a successful Bind sets both; every
failed Bind leaves the message unchanged (sets neither); Unbind clears
both; and hence along every sequence of Bind/Unbind operations starting
from Create the paired invariant holds at every observation point. -/
theorem slice_user_paired :
    (∀ (nb nf nh : Nat) (s : Bool),
      (bus1_message_new nb nf nh s).slice = none ∧
      (bus1_message_new nb nf nh s).user = none) ∧
    (∀ (m : Bus1Message) (peer : Bus1PeerInfo) (u : Nat),
      ((bus1_message_allocate_locked m peer u).1 = none →
        (bus1_message_allocate_locked m peer u).2.1.slice.isSome = true ∧
        (bus1_message_allocate_locked m peer u).2.1.user.isSome = true) ∧
      ((bus1_message_allocate_locked m peer u).1.isSome = true →
        (bus1_message_allocate_locked m peer u).2.1 = m)) ∧
    (∀ (m : Bus1Message) (peer : Bus1PeerInfo),
      (bus1_message_deallocate_locked m peer).1.slice = none ∧
      (bus1_message_deallocate_locked m peer).1.user = none) ∧
    (∀ (nb nf nh : Nat) (s : Bool) (ops : List MsgOp),
      (run_ops (bus1_message_new nb nf nh s) ops).slice.isSome =
        (run_ops (bus1_message_new nb nf nh s) ops).user.isSome) := by
  refine ⟨?_, ?_, ?_, ?_⟩
  · intro nb nf nh s
    exact ⟨rfl, rfl⟩
  · intro m peer u
    by_cases hb : (m.user.isSome || m.slice.isSome) = true
    · have hval : bus1_message_allocate_locked m peer u =
          (some BindError.AlreadyBound, m, peer) := by
        unfold bus1_message_allocate_locked
        rw [if_pos hb]
      rw [hval]
      exact ⟨fun hcon => absurd hcon (by simp), fun _ => rfl⟩
    · cases hc : bus1_user_quota_charge peer m.data.n_bytes m.data.n_handles
          m.data.n_fds with
      | none =>
        have hval : bus1_message_allocate_locked m peer u =
            (some BindError.QuotaExceeded, m, peer) := by
          simp only [bus1_message_allocate_locked, if_neg hb, hc]
        rw [hval]
        exact ⟨fun hcon => absurd hcon (by simp), fun _ => rfl⟩
      | some peerc =>
        cases ha : bus1_pool_alloc peerc.pool
            (bus1_slice_size m.data.n_bytes m.data.n_handles m.data.n_fds) with
        | none =>
          have hval : bus1_message_allocate_locked m peer u =
              (some BindError.PoolExhausted, m,
               bus1_user_quota_discharge peerc m.data.n_bytes m.data.n_handles
                 m.data.n_fds) := by
            simp only [bus1_message_allocate_locked, if_neg hb, hc, ha]
          rw [hval]
          exact ⟨fun hcon => absurd hcon (by simp), fun _ => rfl⟩
        | some sp =>
          obtain ⟨slice, pool1⟩ := sp
          have hval : bus1_message_allocate_locked m peer u =
              (none,
               { m with user := some u, slice := some slice,
                        data := { m.data with offset := slice.offset } },
               { peerc with pool := pool1 }) := by
            simp only [bus1_message_allocate_locked, if_neg hb, hc, ha]
          rw [hval]
          exact ⟨fun _ => ⟨rfl, rfl⟩, fun hcon => absurd hcon (by simp)⟩
  · intro m peer
    cases hs : m.slice with
    | none => simp [bus1_message_deallocate_locked, hs]
    | some s => simp [bus1_message_deallocate_locked, hs]
  · intro nb nf nh s ops
    exact run_ops_paired ops (bus1_message_new nb nf nh s) rfl

/-- C4 (witness): the paired invariant facts evaluated at concrete inputs,
including a successful Bind (the peer has room and quota) and a Bind →
Unbind operation sequence. -/
theorem slice_user_paired_witness :
    ((bus1_message_new 2 1 1 false).slice = none ∧
     (bus1_message_new 2 1 1 false).user = none) ∧
    ((bus1_message_allocate_locked (bus1_message_new 2 1 1 false)
        ⟨⟨100, 0⟩, ⟨0, 0, 0⟩, ⟨10, 10, 10⟩⟩ 3).2.1.slice.isSome = true ∧
     (bus1_message_allocate_locked (bus1_message_new 2 1 1 false)
        ⟨⟨100, 0⟩, ⟨0, 0, 0⟩, ⟨10, 10, 10⟩⟩ 3).2.1.user.isSome = true) ∧
    ((bus1_message_allocate_locked
        { bus1_message_new 2 1 1 false with user := some 9 }
        ⟨⟨100, 0⟩, ⟨0, 0, 0⟩, ⟨10, 10, 10⟩⟩ 3).2.1 =
      { bus1_message_new 2 1 1 false with user := some 9 }) ∧
    (run_ops (bus1_message_new 2 1 1 false)
        [MsgOp.bind ⟨⟨100, 0⟩, ⟨0, 0, 0⟩, ⟨10, 10, 10⟩⟩ 3,
         MsgOp.unbind ⟨⟨100, 24⟩, ⟨2, 1, 1⟩, ⟨10, 10, 10⟩⟩]).slice.isSome =
      (run_ops (bus1_message_new 2 1 1 false)
        [MsgOp.bind ⟨⟨100, 0⟩, ⟨0, 0, 0⟩, ⟨10, 10, 10⟩⟩ 3,
         MsgOp.unbind ⟨⟨100, 24⟩, ⟨2, 1, 1⟩, ⟨10, 10, 10⟩⟩]).user.isSome :=
  ⟨slice_user_paired.1 2 1 1 false,
   (slice_user_paired.2.1 (bus1_message_new 2 1 1 false)
      ⟨⟨100, 0⟩, ⟨0, 0, 0⟩, ⟨10, 10, 10⟩⟩ 3).1 (by decide),
   (slice_user_paired.2.1 { bus1_message_new 2 1 1 false with user := some 9 }
      ⟨⟨100, 0⟩, ⟨0, 0, 0⟩, ⟨10, 10, 10⟩⟩ 3).2 (by decide),
   slice_user_paired.2.2.2 2 1 1 false
     [MsgOp.bind ⟨⟨100, 0⟩, ⟨0, 0, 0⟩, ⟨10, 10, 10⟩⟩ 3,
      MsgOp.unbind ⟨⟨100, 24⟩, ⟨2, 1, 1⟩, ⟨10, 10, 10⟩⟩]⟩

/-- C1 (code evaluated at the failing input): with counts n_bytes = 0,
n_handles = 0, n_fds = 3 the source sizes the slice at
ALIGN(0,8) + ALIGN(0,8) + ALIGN(3 + 4, 8) = 8 bytes, not the
ALIGN(3 * 4, 8) = 16 bytes the spec's descriptor-table region (n_fds
four-byte entries) requires — and bus1_message_install_fds then writes
n_fds * sizeof(int) = 12 bytes at bus1_fd_offset 0 0 = 0, past the end of
the 8-byte slice the code allocated. -/
theorem slice_size_fd_region_bug :
    bus1_slice_size 0 0 3 = 8 ∧
    spec_slice_size 0 0 3 = 16 ∧
    bus1_fd_offset 0 0 + 3 * 4 > bus1_slice_size 0 0 3 := by
  refine ⟨by decide, by decide, by decide⟩

/-- Testing two naturals for equality is unchanged by adding one to both. -/
theorem beq_add_one (a b : Nat) : (a + 1 == b + 1) = (a == b) := by
  rcases Bool.eq_false_or_eq_true (a == b) with h | h <;>
    simp_all [beq_iff_eq, Nat.succ_inj]

/-- The walk-and-write loop writes exactly the spec-prescribed prefix of
writes up to the first failing chunk, and succeeds exactly when every
chunk's write succeeded. -/
theorem install_handles_go_spec (wok : Nat → Bool) :
    ∀ (chunks : List (List Nat)) (i off : Nat),
      install_handles_go wok i off chunks =
        ((lead_ok wok i chunks.length == chunks.length),
         (spec_handle_writes off chunks).take (lead_ok wok i chunks.length)) := by
  intro chunks
  induction chunks with
  | nil =>
    intro i off
    simp [install_handles_go, lead_ok, spec_handle_writes]
  | cons c cs ih =>
    intro i off
    by_cases hw : wok i
    · simp only [install_handles_go, hw, if_true, ih, lead_ok,
        spec_handle_writes, List.length_cons, List.take_succ_cons]
      rw [beq_add_one]
    · simp only [install_handles_go, hw, lead_ok,
        if_neg (by decide : ¬ ((false : Bool) = true)),
        List.length_cons, List.take_zero]
      rfl

/-- C9: bus1_message_install_handles writes each chunk of resolved handle
ids at a running offset starting at ALIGN(n_bytes, 8) and advancing by
each chunk's byte length (n × 8): the performed writes are exactly the
spec-prescribed (offset, length) sequence truncated at the first failing
chunk write, the operation reports failure as soon as a chunk write fails,
and it reports success exactly when the chunk sequence was exhausted with
every write performed.  (The source function never assigns a message
field, so the slice and accounted_user binding are intact either way.) -/
theorem install_handles_offsets (m : Bus1Message) (chunks : List (List Nat))
    (wok : Nat → Bool) :
    bus1_message_install_handles m chunks wok =
      ((lead_ok wok 0 chunks.length == chunks.length),
       (spec_handle_writes (ALIGN m.data.n_bytes 8) chunks).take
         (lead_ok wok 0 chunks.length)) :=
  install_handles_go_spec wok chunks 0 (ALIGN m.data.n_bytes 8)

/-- C10: bus1_message_free is total on a NULL input — a no-op that frees
nothing, releases no file reference and returns NULL — and it returns
NULL for every input. -/
theorem free_null_total :
    bus1_message_free none = (none, { fput_count := 0, freed := false }) ∧
    ∀ x : Option Bus1Message, (bus1_message_free x).1 = none := by
  refine ⟨rfl, ?_⟩
  intro x
  cases x with
  | none => rfl
  | some m => rfl

end Bus1
